import Mathlib

/-!
Formal model of the `proyecto_cero` retrieval-augmented pipeline
(`src/chatbot/proyecto_cero/src/proyecto_cero`), shallow-embedded in Lean.

Texts are lists of characters, Python slices and string methods are
modelled by explicit list functions, the generator loop of `chunk_text`
is modelled by a fuel-indexed recursion (`none` = the loop has not
finished within the given step budget), and external collaborators
(the Chroma collection, the LLM SDK clients) are abstract functions
supplied as parameters.
-/

namespace ProyectoCero

/-! ### Python string primitives -/

/-- Python slice `text[i:j]` (for `0 ≤ i ≤ j ≤ len`) on a character list. -/
def pySlice (t : List Char) (i j : Nat) : List Char := (t.drop i).take (j - i)

/-- Character class stripped by Python `str.strip()` (ASCII whitespace). -/
def isPySpace (c : Char) : Bool :=
  c = ' ' || c = '\t' || c = '\n' || c = '\r' || c = Char.ofNat 11 || c = Char.ofNat 12

/-- Python `s.strip()`: drop leading and trailing whitespace. -/
def pyStrip (s : List Char) : List Char :=
  ((s.dropWhile isPySpace).reverse.dropWhile isPySpace).reverse

/-- Python `window.rfind(" ")`: the index of the last space character,
`none` standing for the `-1` returned when there is no space. -/
def lastSpaceIdx : List Char → Option Nat
  | [] => none
  | c :: cs =>
    match lastSpaceIdx cs with
    | some j => some (j + 1)
    | none => if c = ' ' then some 0 else none

/-! ### Segmenter (`rag/chunk.py`, `chunk_text`, lines 19-50) -/

/-- The window-end computation of one iteration of `chunk_text`
(chunk.py lines 37-41): `end = min(i + chunk_chars, n)`, then if the
window does not reach the end of the text, cut back to the last space
of the window provided it lies after `chunk_chars - 300`.  The guard
`cut > chunk_chars - 300` is Python integer arithmetic, hence `Int`. -/
def chunkEnd (t : List Char) (cc : Nat) (i : Nat) : Nat :=
  if min (i + cc) t.length < t.length then
    match lastSpaceIdx (pySlice t i (min (i + cc) t.length)) with
    | some cut =>
      if (cut : Int) > (cc : Int) - 300 then i + cut else min (i + cc) t.length
    | none => min (i + cc) t.length
  else min (i + cc) t.length

/-- One iteration of the `while i < n` loop of `chunk_text`
(chunk.py lines 36-50): emit the stripped chunk when it is non-empty,
stop when the window end reaches the end of the text, otherwise
continue at `max(0, end - overlap_chars)` (truncated `Nat` subtraction
is exactly Python's `max(0, end - overlap_chars)`). -/
def chunkStep (t : List Char) (cc ov : Nat)
    (recur : Nat → Option (List (List Char × Nat × Nat))) (i : Nat) :
    Option (List (List Char × Nat × Nat)) :=
  if i < t.length then
    match (if chunkEnd t cc i = t.length then some [] else recur (chunkEnd t cc i - ov)) with
    | none => none
    | some rest =>
      some (if (pyStrip (pySlice t i (chunkEnd t cc i))).isEmpty then rest
            else (pyStrip (pySlice t i (chunkEnd t cc i)), i, chunkEnd t cc i) :: rest)
  else some []

/-- The loop of `chunk_text`, indexed by fuel: `some spans` when the
loop finishes within `fuel` iterations, `none` otherwise. -/
def chunkLoop (t : List Char) (cc ov : Nat) : Nat → Nat → Option (List (List Char × Nat × Nat))
  | 0, _ => none
  | fuel + 1, i => chunkStep t cc ov (chunkLoop t cc ov fuel) i

/-- `chunk_text(text, chunk_chars, overlap_chars)` run from cursor 0,
listing the `(chunk, start_idx, end_idx)` triples it yields. -/
def chunkText (t : List Char) (cc ov : Nat) (fuel : Nat) :
    Option (List (List Char × Nat × Nat)) :=
  chunkLoop t cc ov fuel 0

/-- `chunk_text` including its parameter validation (chunk.py lines
29-32): `ValueError` (the spec's `ConfigurationError`) is raised before
the loop runs when `chunk_chars <= 0` or when
`overlap_chars < 0 or overlap_chars >= chunk_chars`. -/
def chunkTextChecked (t : List Char) (chunk_chars overlap_chars : Int) (fuel : Nat) :
    Except String (Option (List (List Char × Nat × Nat))) :=
  if chunk_chars ≤ 0 then .error "chunk_chars debe ser > 0"
  else if overlap_chars < 0 ∨ chunk_chars ≤ overlap_chars then
    .error "overlap_chars debe estar en [0, chunk_chars)"
  else .ok (chunkText t chunk_chars.toNat overlap_chars.toNat fuel)

/-! ### Basic lemmas about the string primitives -/

theorem pySlice_length (t : List Char) (i j : Nat) :
    (pySlice t i j).length = min (j - i) (t.length - i) := by
  simp [pySlice]

theorem pyStrip_nil : pyStrip [] = [] := rfl

theorem pyStrip_ne_nil {s : List Char} (h : pyStrip s ≠ []) : s ≠ [] := by
  intro hs; exact h (hs ▸ pyStrip_nil)

theorem pySlice_ne_nil_lt {t : List Char} {i j : Nat} (h : pySlice t i j ≠ []) :
    i < j ∧ i < t.length := by
  have hl : (pySlice t i j).length ≠ 0 := fun hl => h (List.eq_nil_of_length_eq_zero hl)
  rw [pySlice_length] at hl
  omega

theorem lastSpaceIdx_lt_length (w : List Char) (j : Nat) (h : lastSpaceIdx w = some j) :
    j < w.length := by
  induction w generalizing j with
  | nil => simp [lastSpaceIdx] at h
  | cons c cs ih =>
    simp only [lastSpaceIdx] at h
    cases hc : lastSpaceIdx cs with
    | some k =>
      rw [hc] at h
      injection h with h
      have := ih _ hc
      simp only [List.length_cons]
      omega
    | none =>
      rw [hc] at h
      by_cases hsp : c = ' '
      · rw [if_pos hsp] at h
        injection h with h
        simp only [List.length_cons]
        omega
      · rw [if_neg hsp] at h
        cases h

theorem chunkEnd_le (t : List Char) (cc i : Nat) : chunkEnd t cc i ≤ t.length := by
  unfold chunkEnd
  by_cases h : min (i + cc) t.length < t.length
  · rw [if_pos h]
    cases hc : lastSpaceIdx (pySlice t i (min (i + cc) t.length)) with
    | none =>
      show min (i + cc) t.length ≤ t.length
      omega
    | some cut =>
      show (if (cut : Int) > (cc : Int) - 300 then i + cut else min (i + cc) t.length) ≤
        t.length
      by_cases hg : (cut : Int) > (cc : Int) - 300
      · rw [if_pos hg]
        have hlt := lastSpaceIdx_lt_length _ _ hc
        rw [pySlice_length] at hlt
        omega
      · rw [if_neg hg]; omega
  · rw [if_neg h]; omega

/-! ### C1 / C9 support: behaviour of one loop step -/

theorem chunkStep_stuck (t : List Char) (cc ov : Nat)
    (r : Nat → Option (List (List Char × Nat × Nat))) (i : Nat)
    (hi : i < t.length) (hne : chunkEnd t cc i ≠ t.length)
    (h : r (chunkEnd t cc i - ov) = none) :
    chunkStep t cc ov r i = none := by
  unfold chunkStep
  rw [if_pos hi, if_neg hne, h]

theorem chunkLoop_mem_invariant (t : List Char) (cc ov : Nat) :
    ∀ fuel i res, chunkLoop t cc ov fuel i = some res →
      ∀ c s e, (c, s, e) ∈ res →
        s < e ∧ e ≤ t.length ∧ c = pyStrip (pySlice t s e) ∧ c ≠ [] := by
  intro fuel
  induction fuel with
  | zero => intro i res h; cases h
  | succ k ih =>
    intro i res h c s e hmem
    have h' : chunkStep t cc ov (chunkLoop t cc ov k) i = some res := h
    unfold chunkStep at h'
    by_cases hi : i < t.length
    · rw [if_pos hi] at h'
      cases hrest : (if chunkEnd t cc i = t.length then some []
          else chunkLoop t cc ov k (chunkEnd t cc i - ov)) with
      | none => rw [hrest] at h'; cases h'
      | some rest =>
        rw [hrest] at h'
        injection h' with h'
        have hrest_inv : ∀ c s e, (c, s, e) ∈ rest →
            s < e ∧ e ≤ t.length ∧ c = pyStrip (pySlice t s e) ∧ c ≠ [] := by
          by_cases hend : chunkEnd t cc i = t.length
          · rw [if_pos hend] at hrest
            injection hrest with hr
            intro c s e hm; rw [← hr] at hm; cases hm
          · rw [if_neg hend] at hrest
            exact ih _ _ hrest
        subst h'
        by_cases hemp : (pyStrip (pySlice t i (chunkEnd t cc i))).isEmpty
        · rw [if_pos hemp] at hmem
          exact hrest_inv _ _ _ hmem
        · rw [if_neg hemp] at hmem
          rcases List.mem_cons.mp hmem with hhead | htail

          · have hc : c = pyStrip (pySlice t i (chunkEnd t cc i)) := congrArg Prod.fst hhead
            have hs : s = i := congrArg (fun p => p.2.1) hhead
            have he : e = chunkEnd t cc i := congrArg (fun p => p.2.2) hhead
            have hne : pyStrip (pySlice t i (chunkEnd t cc i)) ≠ [] := by
              intro hn; rw [hn] at hemp; exact hemp rfl
            have hsl : pySlice t i (chunkEnd t cc i) ≠ [] := pyStrip_ne_nil hne
            have hlt := pySlice_ne_nil_lt hsl
            rw [hc, hs, he]
            exact ⟨hlt.1, chunkEnd_le t cc i, rfl, hne⟩
          · exact hrest_inv _ _ _ htail
    · rw [if_neg hi] at h'
      injection h' with h'
      rw [← h'] at hmem
      cases hmem

/-! ### Reconstruction of the text from yielded spans (claim C4) -/

/-- Reconstruction described by claim C4: walk the yielded spans in
order and, for each span, keep only the part strictly after the
previous span's end (the overlapping part against the predecessor is
removed), concatenating the covered slices of the original text. -/
def coveredFrom (t : List Char) : Nat → List (List Char × Nat × Nat) → List Char
  | _, [] => []
  | p, (_, s, e) :: rest => pySlice t (max s p) e ++ coveredFrom t e rest

/-- Reconstruction of the whole text from the yielded spans. -/
def reconstructCovered (t : List Char) (spans : List (List Char × Nat × Nat)) : List Char :=
  coveredFrom t 0 spans

/-- A run of the `chunk_text` loop is drop-free when every candidate
chunk it inspects is non-empty after trimming, so no yield is skipped;
this mirrors the iteration structure of `chunkLoop` (and is `false` on
fuel exhaustion). -/
def dropFreeLoop (t : List Char) (cc ov : Nat) : Nat → Nat → Bool
  | 0, _ => false
  | fuel + 1, i =>
    if i < t.length then
      !(pyStrip (pySlice t i (chunkEnd t cc i))).isEmpty &&
        (if chunkEnd t cc i = t.length then true
         else dropFreeLoop t cc ov fuel (chunkEnd t cc i - ov))
    else true

theorem pySlice_self (t : List Char) : pySlice t 0 t.length = t := by
  simp [pySlice]

theorem pySlice_split (t : List Char) (i m j : Nat) (him : i ≤ m) (hmj : m ≤ j) :
    pySlice t i j = pySlice t i m ++ pySlice t m j := by
  unfold pySlice
  have h1 : j - i = (m - i) + (j - m) := by omega
  rw [h1, List.take_add]
  congr 1
  have h2 : (t.drop i).drop (m - i) = t.drop m := by
    rw [List.drop_drop]
    congr 1
    omega
  rw [h2]

theorem pySlice_getElem (t : List Char) (i j k : Nat) (hk : k < j - i) :
    (pySlice t i j)[k]? = t[i + k]? := by
  unfold pySlice
  rw [List.getElem?_take, if_pos hk, List.getElem?_drop]

/-- The last-space index really is a space. -/
theorem lastSpaceIdx_isSpace (w : List Char) (j : Nat) (h : lastSpaceIdx w = some j) :
    w[j]? = some ' ' := by
  induction w generalizing j with
  | nil => simp [lastSpaceIdx] at h
  | cons c cs ih =>
    simp only [lastSpaceIdx] at h
    cases hc : lastSpaceIdx cs with
    | some k =>
      rw [hc] at h
      injection h with h
      rw [← h]
      simpa using ih _ hc
    | none =>
      rw [hc] at h
      by_cases hsp : c = ' '
      · rw [if_pos hsp] at h
        injection h with h
        rw [← h]
        simp [hsp]
      · rw [if_neg hsp] at h
        cases h

/-- When `rfind` reports no space, there is none. -/
theorem lastSpaceIdx_no_space (w : List Char) (k : Nat) (h : lastSpaceIdx w = none)
    (hk : w[k]? = some ' ') : False := by
  induction w generalizing k with
  | nil => simp at hk
  | cons c cs ih =>
    simp only [lastSpaceIdx] at h
    cases hc : lastSpaceIdx cs with
    | some m => rw [hc] at h; cases h
    | none =>
      rw [hc] at h
      by_cases hsp : c = ' '
      · rw [if_pos hsp] at h; cases h
      · rw [if_neg hsp] at h
        cases k with
        | zero =>
          simp only [List.getElem?_cons_zero] at hk
          injection hk with hk
          exact hsp hk
        | succ k' =>
          simp only [List.getElem?_cons_succ] at hk
          exact ih k' hc hk

/-- No space occurs after the last-space index. -/
theorem lastSpaceIdx_maximal (w : List Char) (j k : Nat) (h : lastSpaceIdx w = some j)
    (hk : w[k]? = some ' ') : k ≤ j := by
  induction w generalizing j k with
  | nil => simp at hk
  | cons c cs ih =>
    simp only [lastSpaceIdx] at h
    cases hc : lastSpaceIdx cs with
    | some m =>
      rw [hc] at h
      injection h with h
      cases k with
      | zero => omega
      | succ k' =>
        simp only [List.getElem?_cons_succ] at hk
        have := ih _ k' hc hk
        omega
    | none =>
      rw [hc] at h
      by_cases hsp : c = ' '
      · rw [if_pos hsp] at h
        injection h with h
        cases k with
        | zero => omega
        | succ k' =>
          simp only [List.getElem?_cons_succ] at hk
          exact (lastSpaceIdx_no_space cs k' hc hk).elim
      · rw [if_neg hsp] at h
        cases h

theorem chunkEnd_eq_of_lt (t : List Char) (cc i : Nat) (h : i + cc < t.length) :
    chunkEnd t cc i = match lastSpaceIdx (pySlice t i (i + cc)) with
      | some cut => if (cut : Int) > (cc : Int) - 300 then i + cut else i + cc
      | none => i + cc := by
  unfold chunkEnd
  have hmin : min (i + cc) t.length = i + cc := by omega
  rw [hmin, if_pos h]

theorem chunkEnd_eq_of_ge (t : List Char) (cc j : Nat) (h : t.length ≤ j + cc) :
    chunkEnd t cc j = t.length := by
  unfold chunkEnd
  have hmin : min (j + cc) t.length = t.length := by omega
  rw [hmin, if_neg (lt_irrefl t.length)]

/-- Window ends never move backwards: the end computed from the next
cursor `max(0, end - overlap)` is at least the current end, as long as
the current end has not reached the end of the text. -/
theorem chunkEnd_next_ge (t : List Char) (cc ov : Nat) (hov : ov < cc) (i : Nat)
    (he : chunkEnd t cc i < t.length) :
    chunkEnd t cc i ≤ chunkEnd t cc (chunkEnd t cc i - ov) := by
  have hle := chunkEnd_le t cc i
  have hicc : i + cc < t.length := by
    by_contra hge
    push_neg at hge
    rw [chunkEnd_eq_of_ge t cc i hge] at he
    exact lt_irrefl _ he
  have hw1len : (pySlice t i (i + cc)).length = cc := by
    rw [pySlice_length]; omega
  have hN1 : chunkEnd t cc i < (chunkEnd t cc i - ov) + cc := by omega
  by_cases h2 : (chunkEnd t cc i - ov) + cc < t.length
  · rw [chunkEnd_eq_of_lt t cc _ h2]
    have hw2len : (pySlice t (chunkEnd t cc i - ov) ((chunkEnd t cc i - ov) + cc)).length
        = cc := by
      rw [pySlice_length]; omega
    cases hc2 : lastSpaceIdx
        (pySlice t (chunkEnd t cc i - ov) ((chunkEnd t cc i - ov) + cc)) with
    | none =>
      show chunkEnd t cc i ≤ (chunkEnd t cc i - ov) + cc
      omega
    | some c2 =>
      show chunkEnd t cc i ≤
        if (c2 : Int) > (cc : Int) - 300 then (chunkEnd t cc i - ov) + c2
        else (chunkEnd t cc i - ov) + cc
      by_cases hg2 : (c2 : Int) > (cc : Int) - 300
      · rw [if_pos hg2]
        by_contra hlt
        push_neg at hlt
        have hc2lt : c2 < cc := by
          have := lastSpaceIdx_lt_length _ _ hc2
          omega
        have ht2 : t[(chunkEnd t cc i - ov) + c2]? = some ' ' := by
          have hsp := lastSpaceIdx_isSpace _ _ hc2
          rwa [pySlice_getElem t _ _ c2 (by omega)] at hsp
        cases hc1 : lastSpaceIdx (pySlice t i (i + cc)) with
        | none =>
          have he1 : chunkEnd t cc i = i + cc := by
            rw [chunkEnd_eq_of_lt t cc i hicc, hc1]
          have hrange : i ≤ (chunkEnd t cc i - ov) + c2 ∧
              (chunkEnd t cc i - ov) + c2 < i + cc := by omega
          have hsp1 := pySlice_getElem t i (i + cc)
            (((chunkEnd t cc i - ov) + c2) - i) (by omega)
          rw [show i + (((chunkEnd t cc i - ov) + c2) - i) = (chunkEnd t cc i - ov) + c2
            by omega, ht2] at hsp1
          exact lastSpaceIdx_no_space _ _ hc1 hsp1
        | some c1 =>
          have hc1lt : c1 < cc := by
            have := lastSpaceIdx_lt_length _ _ hc1
            omega
          by_cases hg1 : (c1 : Int) > (cc : Int) - 300
          · have he1 : chunkEnd t cc i = i + c1 := by
              rw [chunkEnd_eq_of_lt t cc i hicc, hc1]
              exact if_pos hg1
            have hte : t[chunkEnd t cc i]? = some ' ' := by
              have hsp := lastSpaceIdx_isSpace _ _ hc1
              rw [pySlice_getElem t i (i + cc) c1 (by omega)] at hsp
              rwa [he1]
            have hsp2 := pySlice_getElem t (chunkEnd t cc i - ov)
              ((chunkEnd t cc i - ov) + cc)
              (chunkEnd t cc i - (chunkEnd t cc i - ov)) (by omega)
            rw [show (chunkEnd t cc i - ov) + (chunkEnd t cc i - (chunkEnd t cc i - ov))
              = chunkEnd t cc i by omega, hte] at hsp2
            have := lastSpaceIdx_maximal _ _ _ hc2 hsp2
            omega
          · have he1 : chunkEnd t cc i = i + cc := by
              rw [chunkEnd_eq_of_lt t cc i hicc, hc1]
              exact if_neg hg1
            have hrange : i ≤ (chunkEnd t cc i - ov) + c2 ∧
                (chunkEnd t cc i - ov) + c2 < i + cc := by omega
            have hsp1 := pySlice_getElem t i (i + cc)
              (((chunkEnd t cc i - ov) + c2) - i) (by omega)
            rw [show i + (((chunkEnd t cc i - ov) + c2) - i) = (chunkEnd t cc i - ov) + c2
              by omega, ht2] at hsp1
            have := lastSpaceIdx_maximal _ _ _ hc1 hsp1
            omega
      · rw [if_neg hg2]
        omega
  · have hend : chunkEnd t cc (chunkEnd t cc i - ov) = t.length :=
      chunkEnd_eq_of_ge t cc _ (by omega)
    omega

/-- Drop-free runs of the loop cover the remaining text exactly:
`coveredFrom t p res` applied to the spans produced from cursor `i`
yields the slice `text[p:]`, for any hand-over point `p` between the
cursor and the current window end. -/
theorem coveredFrom_chunkLoop (t : List Char) (cc ov : Nat) (hov : ov < cc) :
    ∀ fuel i res p, dropFreeLoop t cc ov fuel i = true →
      chunkLoop t cc ov fuel i = some res →
      i ≤ p → p ≤ t.length → (i < t.length → p ≤ chunkEnd t cc i) →
      coveredFrom t p res = pySlice t p t.length := by
  intro fuel
  induction fuel with
  | zero =>
    intro i res p hdf
    simp [dropFreeLoop] at hdf
  | succ k ih =>
    intro i res p hdf h hip hpn hpe
    have h' : chunkStep t cc ov (chunkLoop t cc ov k) i = some res := h
    unfold chunkStep at h'
    unfold dropFreeLoop at hdf
    by_cases hi : i < t.length
    · rw [if_pos hi] at h' hdf
      rw [Bool.and_eq_true] at hdf
      obtain ⟨hd1, hd2⟩ := hdf
      have hne : (pyStrip (pySlice t i (chunkEnd t cc i))).isEmpty = false := by
        simpa using hd1
      rw [hne] at h'
      by_cases hend : chunkEnd t cc i = t.length
      · rw [if_pos hend] at h'
        injection h' with h'
        rw [if_neg (by simp)] at h'
        subst h'
        show pySlice t (max i p) (chunkEnd t cc i) ++ coveredFrom t (chunkEnd t cc i) []
          = pySlice t p t.length
        rw [Nat.max_eq_right hip, hend]
        simp [coveredFrom]
      · rw [if_neg hend] at h' hd2
        cases hrest : chunkLoop t cc ov k (chunkEnd t cc i - ov) with
        | none => rw [hrest] at h'; cases h'
        | some rest =>
          rw [hrest] at h'
          injection h' with h'
          rw [if_neg (by simp)] at h'
          subst h'
          have helt : chunkEnd t cc i < t.length :=
            lt_of_le_of_ne (chunkEnd_le t cc i) hend
          have hrec := ih (chunkEnd t cc i - ov) rest (chunkEnd t cc i) hd2 hrest
            (by omega) (le_of_lt helt)
            (fun _ => chunkEnd_next_ge t cc ov hov i helt)
          show pySlice t (max i p) (chunkEnd t cc i) ++
              coveredFrom t (chunkEnd t cc i) rest = pySlice t p t.length
          rw [Nat.max_eq_right hip, hrec,
            ← pySlice_split t p (chunkEnd t cc i) t.length (hpe hi) (le_of_lt helt)]
    · rw [if_neg hi] at h'
      injection h' with h'
      subst h'
      have hpn' : p = t.length := by omega
      subst hpn'
      show ([] : List Char) = pySlice t t.length t.length
      simp [pySlice]

/-! ### Claims C1, C5, C9 -/

/-- C1: the claim asserts that for every valid parameter pair the scan
cursor makes strict forward progress and `chunk_text` terminates.  The
code violates this: with `chunk_chars = 10`, `overlap_chars = 9`
(valid: `10 > 0`, `0 ≤ 9 < 10`) and the text `"ab cdefghijklmnop"`,
the first window cuts at the space (`end = 2`), and the new cursor
`max(0, end - overlap) = max(0, 2 - 9) = 0` equals the previous cursor,
so the loop re-yields the same chunk forever: for every finite step
budget the loop has not terminated. -/
theorem c1_forward_progress_violated :
    (0 : Int) < 10 ∧ (0 : Int) ≤ 9 ∧ (9 : Int) < 10 ∧
    chunkEnd "ab cdefghijklmnop".toList 10 0 - 9 = 0 ∧
    ∀ fuel, chunkText "ab cdefghijklmnop".toList 10 9 fuel = none := by
  refine ⟨by norm_num, by norm_num, by norm_num, by decide, ?_⟩
  intro fuel
  induction fuel with
  | zero => rfl
  | succ k ih =>
    have h0 : chunkEnd "ab cdefghijklmnop".toList 10 0 - 9 = 0 := by decide
    show chunkStep "ab cdefghijklmnop".toList 10 9
        (chunkLoop "ab cdefghijklmnop".toList 10 9 k) 0 = none
    refine chunkStep_stuck _ _ _ _ _ (by decide) (by decide) ?_
    rw [h0]
    exact ih

/-- C5: `chunk_text` fails with its configuration error exactly when
`chunk_chars ≤ 0` or `overlap_chars < 0` or `overlap_chars ≥
chunk_chars`, before the loop yields anything; for every valid
parameter pair no error is raised. -/
theorem c5_configuration_errors (t : List Char) (cc ov : Int) (fuel : Nat) :
    (∃ msg, chunkTextChecked t cc ov fuel = .error msg) ↔ (cc ≤ 0 ∨ ov < 0 ∨ cc ≤ ov) := by
  unfold chunkTextChecked
  by_cases h1 : cc ≤ 0
  · rw [if_pos h1]
    exact ⟨fun _ => Or.inl h1, fun _ => ⟨_, rfl⟩⟩
  · rw [if_neg h1]
    by_cases h2 : ov < 0 ∨ cc ≤ ov
    · rw [if_pos h2]
      exact ⟨fun _ => Or.inr h2, fun _ => ⟨_, rfl⟩⟩
    · rw [if_neg h2]
      constructor
      · rintro ⟨msg, hmsg⟩
        cases hmsg
      · intro hd
        rcases hd with h | h | h
        · exact absurd h h1
        · exact absurd (Or.inl h) h2
        · exact absurd (Or.inr h) h2

/-- C9: every `(chunk, start, end)` triple yielded by `chunk_text` on a
valid parameter pair satisfies `0 ≤ start < end ≤ |text|`, the chunk is
exactly the slice `text[start:end]` with surrounding whitespace
trimmed, and the chunk is non-empty. -/
theorem c9_span_invariants (t : List Char) (cc ov fuel : Nat)
    (res : List (List Char × Nat × Nat)) (hcc : 0 < cc) (hov : ov < cc)
    (h : chunkText t cc ov fuel = some res) :
    ∀ c s e, (c, s, e) ∈ res →
      s < e ∧ e ≤ t.length ∧ c = pyStrip (pySlice t s e) ∧ c ≠ [] :=
  chunkLoop_mem_invariant t cc ov fuel 0 res h

/-- C4 counterexample: with the valid parameters `chunk_chars = 10`,
`overlap_chars = 0` and the all-whitespace text `"   "`, `chunk_text`
terminates yielding no spans at all (the only candidate chunk trims to
empty and is dropped), so the claimed reconstruction of the original
text from the yielded spans produces the empty string, not the text:
characters of the input are lost. -/
theorem c4_counterexample :
    0 < 10 ∧ 0 < 10 ∧
    chunkText "   ".toList 10 0 3 = some [] ∧
    reconstructCovered "   ".toList [] ≠ "   ".toList :=
  ⟨by decide, by decide, by decide, by decide⟩

/-- C4 (amended): for every text and valid parameter pair, whenever the
run of `chunk_text` is drop-free (no candidate window trims to the
empty chunk) and terminates, taking the yielded spans in order and
removing the overlapping prefix of each span against its predecessor
reconstructs the original text exactly. -/
theorem c4_amended_reconstruction (t : List Char) (cc ov fuel : Nat)
    (res : List (List Char × Nat × Nat)) (hcc : 0 < cc) (hov : ov < cc)
    (hdf : dropFreeLoop t cc ov fuel 0 = true)
    (h : chunkText t cc ov fuel = some res) :
    reconstructCovered t res = t := by
  have hcov := coveredFrom_chunkLoop t cc ov hov fuel 0 res 0 hdf h
    (le_refl 0) (Nat.zero_le _) (fun _ => Nat.zero_le _)
  rw [reconstructCovered, hcov, pySlice_self]

/-- C4 witness: a concrete drop-free run reconstructs its text. -/
theorem c4_amended_reconstruction_witness :
    0 < 2 ∧ 1 < 2 ∧ dropFreeLoop "abcd".toList 2 1 10 0 = true ∧
    chunkText "abcd".toList 2 1 10 =
      some [("ab".toList, 0, 2), ("bc".toList, 1, 3), ("cd".toList, 2, 4)] ∧
    reconstructCovered "abcd".toList
      [("ab".toList, 0, 2), ("bc".toList, 1, 3), ("cd".toList, 2, 4)] = "abcd".toList :=
  ⟨by decide, by decide, by decide, by decide,
   c4_amended_reconstruction "abcd".toList 2 1 10 _ (by decide) (by decide)
     (by decide) (by decide)⟩

/-- C9 witness: the invariant holds on a concrete run. -/
theorem c9_span_invariants_witness :
    0 < 2 ∧ 1 < 2 ∧
    chunkText "abcd".toList 2 1 10 =
      some [("ab".toList, 0, 2), ("bc".toList, 1, 3), ("cd".toList, 2, 4)] ∧
    (∀ c s e,
      (c, s, e) ∈ [("ab".toList, 0, 2), ("bc".toList, 1, 3), ("cd".toList, 2, 4)] →
      s < e ∧ e ≤ "abcd".toList.length ∧ c = pyStrip (pySlice "abcd".toList s e) ∧ c ≠ []) :=
  ⟨by decide, by decide, by decide,
   c9_span_invariants "abcd".toList 2 1 10 _ (by decide) (by decide) (by decide)⟩

/-! ### Retriever (`rag/retrieve.py`) -/

/-- Metadata dictionary of one chunk, restricted to the five fields the
pipeline reads; every value is modelled by the string form in which
the f-strings of the source interpolate it. -/
structure ChunkMeta where
  filename : String
  page : String
  chunk_index : String
  start_char : String
  end_char : String
deriving DecidableEq

/-- Python `needle.startswith`-style check on character lists: the
first argument is an initial segment of the second. -/
def startsWithSeq : List Char → List Char → Bool
  | [], _ => true
  | _ :: _, [] => false
  | a :: pre, b :: l => a == b && startsWithSeq pre l

/-- Python `needle in hay` substring containment on character lists. -/
def containsSeq (needle : List Char) : List Char → Bool
  | [] => needle.isEmpty
  | c :: rest => startsWithSeq needle (c :: rest) || containsSeq needle rest

/-- Python `str.lower()` (ASCII case folding, which covers every
trigger phrase and keyword in the source). -/
def pyLower (s : String) : String := ⟨s.toList.map Char.toLower⟩

/-- Python `needle in hay` on strings. -/
def strContains (hay needle : String) : Bool := containsSeq needle.toList hay.toList

/-- Chroma `where` filter shapes used by the source: the equality
filter dict `\x7b"filename": \x7b"$eq": fn\x7d\x7d`. -/
inductive WhereFilter
  | filenameEq (fn : String)
deriving DecidableEq

/-- Chroma `where_document` filter shapes used by the source: the
content filter dict `\x7b"$contains": kw\x7d`. -/
inductive DocFilter
  | containsKw (kw : String)
deriving DecidableEq

/-- Result shape of `collection.query`: per query text, a ranked list
of documents and their metadata dictionaries (modelled opaquely as a
list of key-value pairs per document). -/
structure ChromaResult where
  documents : List (List String)
  metadatas : List (List ChunkMeta)
deriving DecidableEq

/-- The external Chroma collection: an opaque query function taking
the query text, `n_results`, and the optional filters.  The pipeline
never inspects how it ranks. -/
structure Collection where
  query : String → Int → Option WhereFilter → Option DocFilter → ChromaResult

/-- `_detect_where_filter` (retrieve.py lines 37-45). -/
def detectWhereFilter (query : String) : Option WhereFilter :=
  if strContains (pyLower query) "acelepryn" then
    some (.filenameEq "ficha-seguridad-acelepryn.pdf")
  else if strContains (pyLower query) "amistar" then
    some (.filenameEq "AMISTAR XTRA_hoja_de_seguridad (1).pdf")
  else if strContains (pyLower query) "abofol" then
    some (.filenameEq "ficha-seguridad-abofol-l (1).pdf")
  else none

/-- The `where` filter used by `search`, including the hardcoded typo
fallback for "abofoll" (retrieve.py lines 50-53). -/
def searchWhere (query : String) : Option WhereFilter :=
  match detectWhereFilter query with
  | some w => some w
  | none =>
    if strContains (pyLower query) "abofoll" then
      some (.filenameEq "ficha-seguridad-abofol-l (1).pdf")
    else none

/-- The content keywords scanned for by `search` (retrieve.py line 57). -/
def contentKeywords : List String :=
  ["quemadura", "primeros auxilios", "incendio", "contacto con la piel", "ojos", "ocular"]

/-- The `where_document` filter of `search` (retrieve.py lines 55-60):
the first keyword of the list contained in the lowercased query. -/
def detectDocFilter (query : String) : Option DocFilter :=
  (contentKeywords.find? (fun kw => strContains (pyLower query) kw)).map .containsKw

/-- The inner `run_query` helper of `search` (retrieve.py lines 62-69):
dispatches on which filters are present. -/
def runQuery (coll : Collection) (query : String) (topK : Int)
    (w : Option WhereFilter) (wd : Option DocFilter) : ChromaResult :=
  match w, wd with
  | some w', some wd' => coll.query query topK (some w') (some wd')
  | some w', none => coll.query query topK (some w') none
  | none, some wd' => coll.query query topK none (some wd')
  | none, none => coll.query query topK none none

/-- `result.get("documents", [[]])[0]` as read by `search` and the API
handlers. -/
def resultDocs (r : ChromaResult) : List String := r.documents.headD []

/-- `search` (retrieve.py lines 48-80): try the planned filters, retry
without the content filter when empty, and finally retry with no
filters at all. -/
def search (coll : Collection) (query : String) (topK : Int) : ChromaResult :=
  let w := searchWhere query
  let wd := detectDocFilter query
  let result := runQuery coll query topK w wd
  let docs := resultDocs result
  let second :=
    if docs.isEmpty && wd.isSome then
      let r2 := runQuery coll query topK w none
      (r2, resultDocs r2)
    else (result, docs)
  if second.2.isEmpty then coll.query query topK none none else second.1

/-- Either `search` returns the final unfiltered fallback, or it
returns a result it has seen to be non-empty. -/
theorem search_eq_or_nonempty (coll : Collection) (query : String) (topK : Int) :
    search coll query topK = coll.query query topK none none ∨
    resultDocs (search coll query topK) ≠ [] := by
  unfold search
  by_cases hwd : (detectDocFilter query).isSome
  · by_cases h1 :
        resultDocs (runQuery coll query topK (searchWhere query) (detectDocFilter query)) = []
    · by_cases h2 : resultDocs (runQuery coll query topK (searchWhere query) none) = []
      · left
        simp [hwd, h1, h2]
      · right
        simp [hwd, h1, h2, List.isEmpty_iff]
    · right
      simp [hwd, h1, List.isEmpty_iff]
  · by_cases h1 :
        resultDocs (runQuery coll query topK (searchWhere query) (detectDocFilter query)) = []
    · left
      simp [hwd, h1]
    · right
      simp [hwd, h1, List.isEmpty_iff]

/-! ### Claims C2, C7 -/

/-- C2: if the filtered attempt (equality and/or content filter) and
the equality-only retry both return zero documents, `search` returns
the result of the completely unfiltered query with the same `top_k`,
unmodified; consequently `search` returns an empty result only when
the unfiltered query over the full index is itself empty. -/
theorem c2_filter_relaxation (coll : Collection) (query : String) (topK : Int) :
    ((resultDocs (runQuery coll query topK (searchWhere query) (detectDocFilter query)) = []) →
     (resultDocs (runQuery coll query topK (searchWhere query) none) = []) →
     search coll query topK = coll.query query topK none none) ∧
    (resultDocs (search coll query topK) = [] →
     resultDocs (coll.query query topK none none) = []) := by
  constructor
  · intro h1 h2
    cases hwd : (detectDocFilter query).isSome
    · unfold search
      simp [hwd, h1]
    · unfold search
      simp [hwd, h1, h2]
  · intro hs
    rcases search_eq_or_nonempty coll query topK with he | hne
    · rw [he] at hs
      exact hs
    · exact absurd hs hne

/-- A collection whose every query is empty, exercising the full
relaxation chain. -/
def emptyCollection : Collection := ⟨fun _ _ _ _ => ⟨[[]], [[]]⟩⟩

/-- C2 witness: on an empty index all attempts are empty and `search`
returns exactly the unfiltered query result. -/
theorem c2_filter_relaxation_witness :
    (resultDocs (runQuery emptyCollection "primeros auxilios amistar" 4
      (searchWhere "primeros auxilios amistar")
      (detectDocFilter "primeros auxilios amistar")) = []) ∧
    (resultDocs (runQuery emptyCollection "primeros auxilios amistar" 4
      (searchWhere "primeros auxilios amistar") none) = []) ∧
    search emptyCollection "primeros auxilios amistar" 4 =
      emptyCollection.query "primeros auxilios amistar" 4 none none :=
  ⟨by decide, by decide,
   (c2_filter_relaxation emptyCollection "primeros auxilios amistar" 4).1
     (by decide) (by decide)⟩

/-- Number of positions at which two equal-length character lists
differ (a one-character typo keeps the length and has exactly one
differing position). -/
def countDiffs : List Char → List Char → Nat
  | [], _ => 0
  | _, [] => 0
  | a :: as, b :: bs => (if a = b then 0 else 1) + countDiffs as bs

/-- C7 counterexample: "aceleprin" is a one-character typo of the known
product name "acelepryn" (same length, exactly one differing
character), yet the planner produces no filter for a query containing
it, while the correctly spelled query receives the acelepryn equality
filter — so the claimed equality of filters fails. -/
theorem c7_counterexample :
    "aceleprin".toList.length = "acelepryn".toList.length ∧
    countDiffs "aceleprin".toList "acelepryn".toList = 1 ∧
    searchWhere "como aplicar acelepryn al pasto" =
      some (.filenameEq "ficha-seguridad-acelepryn.pdf") ∧
    searchWhere "como aplicar aceleprin al pasto" = none ∧
    (none : Option WhereFilter) ≠ some (.filenameEq "ficha-seguridad-acelepryn.pdf") :=
  ⟨by decide, by decide, by decide, by decide, by decide⟩

theorem startsWithSeq_append (n m l : List Char) (h : startsWithSeq (n ++ m) l = true) :
    startsWithSeq n l = true := by
  induction n generalizing l with
  | nil => rfl
  | cons a as ih =>
    cases l with
    | nil => simp [startsWithSeq] at h
    | cons b bs =>
      simp only [List.cons_append, startsWithSeq, Bool.and_eq_true] at h ⊢
      exact ⟨h.1, ih bs h.2⟩

theorem containsSeq_append (n m l : List Char) (h : containsSeq (n ++ m) l = true) :
    containsSeq n l = true := by
  induction l with
  | nil =>
    simp only [containsSeq, List.isEmpty_iff, List.append_eq_nil] at h ⊢
    exact h.1
  | cons c cs ih =>
    simp only [containsSeq, Bool.or_eq_true] at h ⊢
    rcases h with h | h
    · exact Or.inl (startsWithSeq_append n m _ h)
    · exact Or.inr (ih h)

/-- C7 (amended): the planner's typo tolerance is one hardcoded alias,
not a general one-character rule: every query containing the near-miss
spelling "abofoll" (and not containing the other trigger phrases)
receives exactly the equality filter of the correctly spelled
"abofol"; other one-character typos receive no filter. -/
theorem c7_amended_abofoll (q : String)
    (h1 : strContains (pyLower q) "abofoll" = true)
    (h2 : strContains (pyLower q) "acelepryn" = false)
    (h3 : strContains (pyLower q) "amistar" = false) :
    searchWhere q = some (.filenameEq "ficha-seguridad-abofol-l (1).pdf") := by
  have hsplit : ("abofoll".toList : List Char) = "abofol".toList ++ "l".toList := by decide
  have habo : strContains (pyLower q) "abofol" = true :=
    containsSeq_append "abofol".toList "l".toList (pyLower q).toList
      (by rw [← hsplit]; exact h1)
  unfold searchWhere detectWhereFilter
  rw [show strContains (pyLower q) "acelepryn" = false from h2,
    show strContains (pyLower q) "amistar" = false from h3,
    show strContains (pyLower q) "abofol" = true from habo]
  simp

/-- C7 witness: a concrete query containing the near-miss spelling. -/
theorem c7_amended_abofoll_witness :
    strContains (pyLower "Dosis de Abofoll") "abofoll" = true ∧
    strContains (pyLower "Dosis de Abofoll") "acelepryn" = false ∧
    strContains (pyLower "Dosis de Abofoll") "amistar" = false ∧
    searchWhere "Dosis de Abofoll" = some (.filenameEq "ficha-seguridad-abofol-l (1).pdf") :=
  ⟨by decide, by decide, by decide,
   c7_amended_abofoll "Dosis de Abofoll" (by decide) (by decide) (by decide)⟩

/-! ### Answer synthesis (`rag/generate.py`) -/

/-- Python `a or b` for strings: `b` when `a` is empty (falsy). -/
def pyOrStr (a b : String) : String := if a = "" then b else a

/-- Settings relevant to generation and the API (settings.py): the
dataclass defaults. -/
structure Settings where
  top_k : Int := 6
  llm_provider : String := "xai"
  groq_model : String := "llama3-8b-8192"
  openai_model : String := "gpt-4o-mini"
  ollama_model : String := "llama3.1:8b"
  bedrock_model : String := "anthropic.claude-3-5-sonnet-20241022-v2:0"
  bedrock_region : String := "us-east-1"

/-- The compact citation tag `filename#p(page) c(chunk_index)` used by
`build_prompt` (generate.py line 16). -/
def citeTag (m : ChunkMeta) : String :=
  m.filename ++ "#p" ++ m.page ++ " c" ++ m.chunk_index

/-- `build_prompt` (generate.py lines 8-19): fixed instruction header,
1-based source-labelled passages, the literal query, and the answer
cue. -/
def build_prompt (query : String) (docs : List String) (metas : List ChunkMeta) : String :=
  let header :=
    "Eres un asistente que responde en español de forma concisa y accionable.\n" ++
    "Usa exclusivamente la información del CONTEXTO. Si algo no está en el contexto, di que no está disponible.\n" ++
    "Incluye pasos claros y, al final, lista breves referencias a las fuentes.\n\n"
  let parts := (docs.zip metas).mapIdx
    (fun i dm => "[Fuente " ++ toString (i + 1) ++ ": " ++ citeTag dm.2 ++ "]\n" ++ dm.1)
  let context := String.intercalate "\n\n" parts
  header ++ "PREGUNTA: " ++ query ++ "\n\nCONTEXTO:\n" ++ context ++ "\n\nRESPUESTA:"

/-- The external generation adapters and environment of
`answer_with_llm`: each `gen_*` field stands for the whole body of the
corresponding `_gen_*` function (an SDK call over the network), which
either returns text or raises (`Except.error`).  The two `*_api_key`
fields model `os.getenv`. -/
structure LlmEnv (ε : Type) where
  openai_api_key : Option String
  groq_api_key : Option String
  gen_openai : String → String → Except ε String
  gen_ollama : String → String → Except ε String
  gen_groq : String → String → Except ε String
  gen_xai : String → Except ε String
  gen_bedrock : String → String → String → Except ε String

/-- The provider string that `answer_with_llm` computes (generate.py
line 126): the configured provider, defaulting by the presence of
`OPENAI_API_KEY`, lowercased. -/
def effectiveProvider {ε : Type} (env : LlmEnv ε) (s : Settings) : String :=
  pyLower (pyOrStr s.llm_provider (if env.openai_api_key.isSome then "openai" else "ollama"))

/-- `answer_with_llm` (generate.py lines 116-142): dispatch on the
provider string; an unknown string falls back by available API keys.
A raised provider exception propagates (`Except.map` keeps errors). -/
def answer_with_llm {ε : Type} (env : LlmEnv ε) (query : String) (docs : List String)
    (metas : List ChunkMeta) (s : Settings) : Except ε (String × String) :=
  let prompt := build_prompt query docs metas
  let provider := effectiveProvider env s
  if provider = "openai" then
    (env.gen_openai prompt s.openai_model).map (fun t => (t, "openai"))
  else if provider = "ollama" then
    (env.gen_ollama prompt s.ollama_model).map (fun t => (t, "ollama"))
  else if provider = "groq" then
    (env.gen_groq prompt s.groq_model).map (fun t => (t, "groq"))
  else if provider = "xai" then
    (env.gen_xai prompt).map (fun t => (t, "xai"))
  else if provider = "bedrock" then
    (env.gen_bedrock prompt s.bedrock_model s.bedrock_region).map (fun t => (t, "bedrock"))
  else if env.openai_api_key.isSome then
    (env.gen_openai prompt s.openai_model).map (fun t => (t, "openai"))
  else if env.groq_api_key.isSome then
    (env.gen_groq prompt s.groq_model).map (fun t => (t, "groq"))
  else
    (env.gen_ollama prompt s.ollama_model).map (fun t => (t, "ollama"))

/-- The single provider call selected by a known provider name. -/
def providerCall {ε : Type} (env : LlmEnv ε) (prompt : String) (s : Settings) :
    String → Except ε String
  | "openai" => env.gen_openai prompt s.openai_model
  | "ollama" => env.gen_ollama prompt s.ollama_model
  | "groq" => env.gen_groq prompt s.groq_model
  | "xai" => env.gen_xai prompt
  | "bedrock" => env.gen_bedrock prompt s.bedrock_model s.bedrock_region
  | _ => env.gen_ollama prompt s.ollama_model

/-! ### Claim C3 -/

/-- C3: when the configured provider string (lowercased) names a known
provider, `answer_with_llm` is exactly the `Except.map` of that single
provider's generate call — on success the text is paired with that
provider's name, and on failure the same error propagates with no
attempt on any other provider; in particular the result depends only
on that provider's adapter. -/
theorem c3_exclusive_provider {ε : Type} (env : LlmEnv ε) (query : String)
    (docs : List String) (metas : List ChunkMeta) (s : Settings) (p : String)
    (hp : p ∈ ["openai", "ollama", "groq", "xai", "bedrock"])
    (hprov : effectiveProvider env s = p) :
    answer_with_llm env query docs metas s =
      (providerCall env (build_prompt query docs metas) s p).map (fun t => (t, p)) ∧
    (∀ err, providerCall env (build_prompt query docs metas) s p = .error err →
      answer_with_llm env query docs metas s = .error err) := by
  have hmain : answer_with_llm env query docs metas s =
      (providerCall env (build_prompt query docs metas) s p).map (fun t => (t, p)) := by
    fin_cases hp <;>
      simp [answer_with_llm, hprov, providerCall]
  refine ⟨hmain, fun err herr => ?_⟩
  rw [hmain, herr]
  rfl

/-- C3 witness: with `llm_provider = "groq"` and a failing groq
adapter, the failure propagates and no other provider is consulted. -/
theorem c3_exclusive_provider_witness :
    ("groq" ∈ ["openai", "ollama", "groq", "xai", "bedrock"]) ∧
    effectiveProvider
      (⟨some "sk", some "gk",
        fun _ _ => .ok "openai says", fun _ _ => .ok "ollama says",
        fun _ _ => .error "groq down", fun _ => .ok "xai says",
        fun _ _ _ => .ok "bedrock says"⟩ : LlmEnv String)
      { llm_provider := "groq" } = "groq" ∧
    answer_with_llm
      (⟨some "sk", some "gk",
        fun _ _ => .ok "openai says", fun _ _ => .ok "ollama says",
        fun _ _ => .error "groq down", fun _ => .ok "xai says",
        fun _ _ _ => .ok "bedrock says"⟩ : LlmEnv String)
      "hola" ["doc"] [⟨"f.pdf", "1", "0", "0", "3"⟩] { llm_provider := "groq" } =
      (Except.error "groq down" : Except String (String × String)) := by
  refine ⟨by decide, by decide, ?_⟩
  exact (c3_exclusive_provider _ "hola" ["doc"] [⟨"f.pdf", "1", "0", "0", "3"⟩]
    { llm_provider := "groq" } "groq" (by decide) (by decide)).2 "groq down" rfl

/-! ### API server (`api/server.py`) -/

/-- The body of a `/query` or `/answer` request (server.py lines
16-20). -/
structure QueryRequest where
  question : String
  top_k : Option Int
  only_retrieve : Bool
  max_context : Int
deriving DecidableEq

/-- One citation of the response (server.py lines 23-27); the `int()`
conversions of `page` and `chunk_index` are parses of externally
produced values, kept here in their string form. -/
structure SourceItem where
  filename : String
  page : String
  chunk_index : String
  preview : String
deriving DecidableEq

/-- The `/query` response shape (server.py lines 30-33). -/
structure QueryResponse where
  answer : Option String
  provider : Option String
  sources : List SourceItem
deriving DecidableEq

/-- Python `req.top_k or s.top_k` (both `None` and `0` are falsy). -/
def pyOrInt (a : Option Int) (b : Int) : Int :=
  match a with
  | none => b
  | some k => if k = 0 then b else k

/-- Python `d[:300]`: slice of a string by characters. -/
def takeStr (n : Nat) (s : String) : String := ⟨s.toList.take n⟩

/-- The preview built by the handlers (server.py line 70):
`d[:300].replace(...)` plus an ellipsis for long documents. -/
def preview300 (d : String) : String :=
  (takeStr 300 d).replace "\n" " " ++ (if 300 < d.length then "..." else "")

/-- `res.get("documents", [[]])[0]` of the handler's `rag_search` call
(server.py lines 60-61). -/
def retrievedDocs (coll : Collection) (s : Settings) (req : QueryRequest) : List String :=
  (search coll req.question (pyOrInt req.top_k s.top_k)).documents.headD []

/-- `res.get("metadatas", [[]])[0]` of the handler's `rag_search` call
(server.py line 62). -/
def retrievedMetas (coll : Collection) (s : Settings) (req : QueryRequest) : List ChunkMeta :=
  (search coll req.question (pyOrInt req.top_k s.top_k)).metadatas.headD []

/-- `max_ctx = max(1, min(req.max_context, len(docs)))` (server.py
line 67). -/
def maxCtx (req : QueryRequest) (ndocs : Nat) : Int :=
  max 1 (min req.max_context (ndocs : Int))

/-- One `SourceItem` (server.py lines 70-78). -/
def mkSourceItem (d : String) (m : ChunkMeta) : SourceItem :=
  ⟨m.filename, m.page, m.chunk_index, preview300 d⟩

/-- The sources list `list(zip(docs, metas))[:max_ctx]` (server.py
lines 68-78). -/
def sourcesOf (docs : List String) (metas : List ChunkMeta) (req : QueryRequest) :
    List SourceItem :=
  ((docs.zip metas).take (maxCtx req docs.length).toNat).map
    (fun dm => mkSourceItem dm.1 dm.2)

/-- The passages `docs[:max_ctx]` handed to `answer_with_llm`
(server.py line 84 and line 117). -/
def contextDocs (docs : List String) (req : QueryRequest) : List String :=
  docs.take (maxCtx req docs.length).toNat

/-- The metadata `metas[:max_ctx]` handed to `answer_with_llm`. -/
def contextMetas (docs : List String) (metas : List ChunkMeta) (req : QueryRequest) :
    List ChunkMeta :=
  metas.take (maxCtx req docs.length).toNat

/-- The `/query` endpoint (server.py lines 52-85), after the
index-directory existence check (an HTTP 500 outside this model);
a provider exception propagates as `Except.error`. -/
def handleQuery {ε : Type} (coll : Collection) (env : LlmEnv ε) (s : Settings)
    (req : QueryRequest) : Except ε QueryResponse :=
  if (retrievedDocs coll s req).isEmpty then .ok ⟨none, none, []⟩
  else if req.only_retrieve then
    .ok ⟨none, none, sourcesOf (retrievedDocs coll s req) (retrievedMetas coll s req) req⟩
  else
    (answer_with_llm env req.question (contextDocs (retrievedDocs coll s req) req)
        (contextMetas (retrievedDocs coll s req) (retrievedMetas coll s req) req) s).map
      (fun ap =>
        ⟨some ap.1, some ap.2,
         sourcesOf (retrievedDocs coll s req) (retrievedMetas coll s req) req⟩)

/-- The `/answer` endpoint (server.py lines 91-118): the same pipeline
returning only the text (empty string on empty retrieval). -/
def handleAnswer {ε : Type} (coll : Collection) (env : LlmEnv ε) (s : Settings)
    (req : QueryRequest) : Except ε String :=
  if (retrievedDocs coll s req).isEmpty then .ok ""
  else if req.only_retrieve then
    .ok (String.intercalate "\n"
      ((contextDocs (retrievedDocs coll s req) req).map preview300))
  else
    (answer_with_llm env req.question (contextDocs (retrievedDocs coll s req) req)
        (contextMetas (retrievedDocs coll s req) (retrievedMetas coll s req) req) s).map
      (fun ap => ap.1)

/-! ### Claims C8, C10 -/

/-- C8: when retrieval returns zero documents the `/query` endpoint
returns an answer of `None`, a provider of `None` and an empty sources
list, and the result does not depend on the generation environment at
all — no provider is invoked. -/
theorem c8_empty_retrieval {ε : Type} (coll : Collection) (env : LlmEnv ε)
    (s : Settings) (req : QueryRequest)
    (h : retrievedDocs coll s req = []) :
    handleQuery coll env s req = .ok ⟨none, none, []⟩ ∧
    ∀ env₂ : LlmEnv ε, handleQuery coll env₂ s req = handleQuery coll env s req := by
  have hq : ∀ env' : LlmEnv ε, handleQuery coll env' s req = .ok ⟨none, none, []⟩ := by
    intro env'
    unfold handleQuery
    rw [h]
    rfl
  exact ⟨hq env, fun env₂ => by rw [hq env₂, hq env]⟩

/-- A generation environment of stub adapters for concrete runs. -/
def stubEnv : LlmEnv String :=
  ⟨none, none, fun _ _ => .ok "a", fun _ _ => .ok "b", fun _ _ => .ok "c",
   fun _ => .ok "d", fun _ _ _ => .ok "e"⟩

/-- C8 witness: a concrete empty index yields the empty response. -/
theorem c8_empty_retrieval_witness :
    retrievedDocs emptyCollection {} ⟨"pregunta", none, false, 6⟩ = [] ∧
    handleQuery emptyCollection stubEnv {} ⟨"pregunta", none, false, 6⟩ =
      .ok ⟨none, none, []⟩ :=
  ⟨by decide,
   (c8_empty_retrieval emptyCollection stubEnv {} ⟨"pregunta", none, false, 6⟩
     (by decide)).1⟩

/-- C10: for a non-empty retrieval with aligned metadata, the number of
citations returned by `/query` and the number of passages handed to the
synthesizer both equal `max(1, min(max_context, len(docs)))`; the lower
clamp means a request with `max_context ≤ 0` still gets exactly one
passage and one citation. -/
theorem c10_max_context_clamp {ε : Type} (coll : Collection) (env : LlmEnv ε)
    (s : Settings) (req : QueryRequest)
    (hne : retrievedDocs coll s req ≠ [])
    (hlen : (retrievedMetas coll s req).length = (retrievedDocs coll s req).length) :
    (∀ r, handleQuery coll env s req = .ok r →
      r.sources.length = (maxCtx req (retrievedDocs coll s req).length).toNat) ∧
    (contextDocs (retrievedDocs coll s req) req).length =
      (maxCtx req (retrievedDocs coll s req).length).toNat ∧
    (req.max_context ≤ 0 → (maxCtx req (retrievedDocs coll s req).length).toNat = 1) := by
  have hlen1 : 1 ≤ (retrievedDocs coll s req).length :=
    List.length_pos.mpr hne
  have hk : (maxCtx req (retrievedDocs coll s req).length).toNat ≤
      (retrievedDocs coll s req).length ∧
      1 ≤ (maxCtx req (retrievedDocs coll s req).length).toNat := by
    unfold maxCtx
    omega
  have hsrc : (sourcesOf (retrievedDocs coll s req) (retrievedMetas coll s req) req).length
      = (maxCtx req (retrievedDocs coll s req).length).toNat := by
    unfold sourcesOf
    rw [List.length_map, List.length_take, List.length_zip, hlen]
    omega
  refine ⟨?_, ?_, ?_⟩
  · intro r hr
    unfold handleQuery at hr
    rw [show (retrievedDocs coll s req).isEmpty = false by
      simpa [List.isEmpty_iff] using hne] at hr
    simp only [Bool.false_eq_true, if_false] at hr
    by_cases ho : req.only_retrieve
    · rw [if_pos ho] at hr
      injection hr with hr
      rw [← hr]
      exact hsrc
    · rw [if_neg ho] at hr
      cases ha : answer_with_llm env req.question
          (contextDocs (retrievedDocs coll s req) req)
          (contextMetas (retrievedDocs coll s req) (retrievedMetas coll s req) req) s with
      | error e =>
        rw [ha] at hr
        simp only [Except.map] at hr
        cases hr
      | ok ap =>
        rw [ha] at hr
        simp only [Except.map] at hr
        injection hr with hr
        rw [← hr]
        exact hsrc
  · unfold contextDocs
    rw [List.length_take]
    omega
  · intro h0
    unfold maxCtx
    omega

/-- An index of three documents for concrete runs. -/
def threeDocCollection : Collection :=
  ⟨fun _ _ _ _ =>
    ⟨[["d1", "d2", "d3"]],
     [[⟨"f.pdf", "1", "0", "0", "2"⟩, ⟨"f.pdf", "1", "1", "2", "4"⟩,
       ⟨"f.pdf", "1", "2", "4", "6"⟩]]⟩⟩

/-- C10 witness: a request with `max_context = 0` against three
retrieved documents still yields exactly one citation and one
passage. -/
theorem c10_max_context_clamp_witness :
    retrievedDocs threeDocCollection {} ⟨"pregunta", none, true, 0⟩ ≠ [] ∧
    (retrievedMetas threeDocCollection {} ⟨"pregunta", none, true, 0⟩).length =
      (retrievedDocs threeDocCollection {} ⟨"pregunta", none, true, 0⟩).length ∧
    ((∀ r, handleQuery threeDocCollection stubEnv {} ⟨"pregunta", none, true, 0⟩ = .ok r →
        r.sources.length =
          (maxCtx ⟨"pregunta", none, true, 0⟩
            (retrievedDocs threeDocCollection {} ⟨"pregunta", none, true, 0⟩).length).toNat) ∧
      (contextDocs (retrievedDocs threeDocCollection {} ⟨"pregunta", none, true, 0⟩)
          ⟨"pregunta", none, true, 0⟩).length =
        (maxCtx ⟨"pregunta", none, true, 0⟩
          (retrievedDocs threeDocCollection {} ⟨"pregunta", none, true, 0⟩).length).toNat ∧
      ((⟨"pregunta", none, true, 0⟩ : QueryRequest).max_context ≤ 0 →
        (maxCtx ⟨"pregunta", none, true, 0⟩
          (retrievedDocs threeDocCollection {} ⟨"pregunta", none, true, 0⟩).length).toNat = 1)) :=
  ⟨by decide, by decide,
   c10_max_context_clamp threeDocCollection stubEnv {} ⟨"pregunta", none, true, 0⟩
     (by decide) (by decide)⟩

/-! ### Chunk identity (`rag/index.py`, `make_id`) -/

/-- UTF-8 encoding of one character, as byte values (Python
`str.encode("utf-8")` acts per character). -/
def utf8EncodeCharN (c : Char) : List Nat :=
  if c.toNat < 128 then [c.toNat]
  else if c.toNat < 2048 then [192 + c.toNat / 64, 128 + c.toNat % 64]
  else if c.toNat < 65536 then
    [224 + c.toNat / 4096, 128 + (c.toNat / 64) % 64, 128 + c.toNat % 64]
  else
    [240 + c.toNat / 262144, 128 + (c.toNat / 4096) % 64, 128 + (c.toNat / 64) % 64,
     128 + c.toNat % 64]

/-- Python `key.encode("utf-8")`: the byte sequence fed to `md5`. -/
def utf8Bytes (s : String) : List Nat := (s.toList.map utf8EncodeCharN).flatten

/-- Reduction of 32-bit arithmetic modulo `2^32`. -/
def u32 (x : Nat) : Nat := x % 4294967296

/-- 32-bit left rotation of a value below `2^32`. -/
def rotl32 (x s : Nat) : Nat := (x * 2 ^ s) % 4294967296 + x / 2 ^ (32 - s)

/-- The 64 MD5 sine-table constants (RFC 1321). -/
def md5K : List Nat :=
  [0xd76aa478, 0xe8c7b756, 0x242070db, 0xc1bdceee,
   0xf57c0faf, 0x4787c62a, 0xa8304613, 0xfd469501,
   0x698098d8, 0x8b44f7af, 0xffff5bb1, 0x895cd7be,
   0x6b901122, 0xfd987193, 0xa679438e, 0x49b40821,
   0xf61e2562, 0xc040b340, 0x265e5a51, 0xe9b6c7aa,
   0xd62f105d, 0x02441453, 0xd8a1e681, 0xe7d3fbc8,
   0x21e1cde6, 0xc33707d6, 0xf4d50d87, 0x455a14ed,
   0xa9e3e905, 0xfcefa3f8, 0x676f02d9, 0x8d2a4c8a,
   0xfffa3942, 0x8771f681, 0x6d9d6122, 0xfde5380c,
   0xa4beea44, 0x4bdecfa9, 0xf6bb4b60, 0xbebfbc70,
   0x289b7ec6, 0xeaa127fa, 0xd4ef3085, 0x04881d05,
   0xd9d4d039, 0xe6db99e5, 0x1fa27cf8, 0xc4ac5665,
   0xf4292244, 0x432aff97, 0xab9423a7, 0xfc93a039,
   0x655b59c3, 0x8f0ccc92, 0xffeff47d, 0x85845dd1,
   0x6fa87e4f, 0xfe2ce6e0, 0xa3014314, 0x4e0811a1,
   0xf7537e82, 0xbd3af235, 0x2ad7d2bb, 0xeb86d391]

/-- The per-round MD5 rotation amounts. -/
def md5S : List Nat :=
  [7, 12, 17, 22, 7, 12, 17, 22, 7, 12, 17, 22, 7, 12, 17, 22,
   5, 9, 14, 20, 5, 9, 14, 20, 5, 9, 14, 20, 5, 9, 14, 20,
   4, 11, 16, 23, 4, 11, 16, 23, 4, 11, 16, 23, 4, 11, 16, 23,
   6, 10, 15, 21, 6, 10, 15, 21, 6, 10, 15, 21, 6, 10, 15, 21]

/-- The four MD5 round functions, selected by the step index. -/
def md5F (i b c d : Nat) : Nat :=
  if i < 16 then (b &&& c) ||| ((b ^^^ 4294967295) &&& d)
  else if i < 32 then (d &&& b) ||| ((d ^^^ 4294967295) &&& c)
  else if i < 48 then b ^^^ c ^^^ d
  else c ^^^ (b ||| (d ^^^ 4294967295))

/-- The MD5 message-word schedule. -/
def md5G (i : Nat) : Nat :=
  if i < 16 then i
  else if i < 32 then (5 * i + 1) % 16
  else if i < 48 then (3 * i + 5) % 16
  else (7 * i) % 16

/-- Little-endian 32-bit word `j` of a 64-byte block. -/
def leWord (bs : List Nat) (j : Nat) : Nat :=
  bs.getD (4 * j) 0 + 256 * bs.getD (4 * j + 1) 0 + 65536 * bs.getD (4 * j + 2) 0 +
    16777216 * bs.getD (4 * j + 3) 0

/-- One of the 64 MD5 steps on the state `(a, b, c, d)`. -/
def md5Step (m : Nat → Nat) (st : Nat × Nat × Nat × Nat) (i : Nat) :
    Nat × Nat × Nat × Nat :=
  (st.2.2.2,
   u32 (st.2.1 + rotl32
     (u32 (md5F i st.2.1 st.2.2.1 st.2.2.2 + st.1 + md5K.getD i 0 + m (md5G i)))
     (md5S.getD i 0)),
   st.2.1, st.2.2.1)

/-- Compression of one 64-byte block into the running state. -/
def md5Block (st : Nat × Nat × Nat × Nat) (block : List Nat) : Nat × Nat × Nat × Nat :=
  let f := (List.range 64).foldl (md5Step (leWord block)) st
  (u32 (st.1 + f.1), u32 (st.2.1 + f.2.1), u32 (st.2.2.1 + f.2.2.1), u32 (st.2.2.2 + f.2.2.2))

/-- MD5 padding: `0x80`, zeros to 56 mod 64, then the bit length as
eight little-endian bytes. -/
def md5Pad (msg : List Nat) : List Nat :=
  msg ++ [128] ++ List.replicate ((119 - msg.length % 64) % 64) 0 ++
    (List.range 8).map (fun k => (8 * msg.length / 2 ^ (8 * k)) % 256)

/-- The MD5 initial state. -/
def md5Init : Nat × Nat × Nat × Nat := (1732584193, 4023233417, 2562383102, 271733878)

/-- The MD5 digest of a byte sequence as four 32-bit words. -/
def md5Digest (msg : List Nat) : Nat × Nat × Nat × Nat :=
  ((List.range ((md5Pad msg).length / 64)).map
    (fun k => ((md5Pad msg).drop (64 * k)).take 64)).foldl md5Block md5Init

/-- Lowercase hexadecimal digit. -/
def hexChar (n : Nat) : Char :=
  if n < 10 then Char.ofNat (48 + n) else Char.ofNat (87 + n % 16)

/-- Two lowercase hex digits of a byte. -/
def byteHexChars (b : Nat) : List Char := [hexChar (b / 16 % 16), hexChar (b % 16)]

/-- The little-endian bytes of a 32-bit word. -/
def wordLEBytes (w : Nat) : List Nat :=
  [w % 256, w / 256 % 256, w / 65536 % 256, w / 16777216 % 256]

/-- The 32-character hex rendering of a digest state. -/
def digestHex (d : Nat × Nat × Nat × Nat) : String :=
  ⟨(([d.1, d.2.1, d.2.2.1, d.2.2.2].map wordLEBytes).flatten.map byteHexChars).flatten⟩

/-- Python `hashlib.md5(bytes).hexdigest()` (validated against the RFC
1321 test vectors). -/
def md5Hex (msg : List Nat) : String := digestHex (md5Digest msg)

/-- The hash key of `make_id` (index.py line 33):
`filename|p(page)|c(chunk_index)|(start_char)|(end_char)`. -/
def makeKey (m : ChunkMeta) : String :=
  m.filename ++ "|p" ++ m.page ++ "|c" ++ m.chunk_index ++ "|" ++ m.start_char ++
    "|" ++ m.end_char

/-- `make_id` (index.py lines 32-34): the md5 hexdigest of the UTF-8
encoded key. -/
def make_id (m : ChunkMeta) : String := md5Hex (utf8Bytes (makeKey m))

/-! ### Claim C6 -/

theorem md5Block_bound (st : Nat × Nat × Nat × Nat) (b : List Nat) :
    (md5Block st b).1 < 4294967296 ∧ (md5Block st b).2.1 < 4294967296 ∧
    (md5Block st b).2.2.1 < 4294967296 ∧ (md5Block st b).2.2.2 < 4294967296 := by
  simp only [md5Block, u32]
  omega

theorem md5_foldl_bound (l : List (List Nat)) (st : Nat × Nat × Nat × Nat)
    (h : st.1 < 4294967296 ∧ st.2.1 < 4294967296 ∧ st.2.2.1 < 4294967296 ∧
      st.2.2.2 < 4294967296) :
    (l.foldl md5Block st).1 < 4294967296 ∧ (l.foldl md5Block st).2.1 < 4294967296 ∧
    (l.foldl md5Block st).2.2.1 < 4294967296 ∧ (l.foldl md5Block st).2.2.2 < 4294967296 := by
  induction l generalizing st with
  | nil => exact h
  | cons b bs ih => exact ih _ (md5Block_bound st b)

theorem md5Digest_bound (msg : List Nat) :
    (md5Digest msg).1 < 4294967296 ∧ (md5Digest msg).2.1 < 4294967296 ∧
    (md5Digest msg).2.2.1 < 4294967296 ∧ (md5Digest msg).2.2.2 < 4294967296 :=
  md5_foldl_bound _ md5Init (by norm_num [md5Init])

theorem stringDataInj {s t : String} (h : s.data = t.data) : s = t := by
  cases s; cases t
  exact congrArg String.mk h

/-- The right-associated character data of the hash key. -/
theorem makeKey_data (m : ChunkMeta) :
    (makeKey m).data = m.filename.data ++ ("|p".data ++ (m.page.data ++ ("|c".data ++
      (m.chunk_index.data ++ ("|".data ++ (m.start_char.data ++ ("|".data ++
        m.end_char.data))))))) := by
  simp [makeKey, String.data_append, List.append_assoc]

/-- Exactly one of the five metadata fields changed, the other four
fixed. -/
def oneFieldDiff (m1 m2 : ChunkMeta) : Prop :=
  (m1.filename ≠ m2.filename ∧ m1.page = m2.page ∧ m1.chunk_index = m2.chunk_index ∧
    m1.start_char = m2.start_char ∧ m1.end_char = m2.end_char) ∨
  (m1.filename = m2.filename ∧ m1.page ≠ m2.page ∧ m1.chunk_index = m2.chunk_index ∧
    m1.start_char = m2.start_char ∧ m1.end_char = m2.end_char) ∨
  (m1.filename = m2.filename ∧ m1.page = m2.page ∧ m1.chunk_index ≠ m2.chunk_index ∧
    m1.start_char = m2.start_char ∧ m1.end_char = m2.end_char) ∨
  (m1.filename = m2.filename ∧ m1.page = m2.page ∧ m1.chunk_index = m2.chunk_index ∧
    m1.start_char ≠ m2.start_char ∧ m1.end_char = m2.end_char) ∨
  (m1.filename = m2.filename ∧ m1.page = m2.page ∧ m1.chunk_index = m2.chunk_index ∧
    m1.start_char = m2.start_char ∧ m1.end_char ≠ m2.end_char)

/-- The metadata family used for the pigeonhole argument: only
`chunk_index` varies. -/
def metaAt (n : Nat) : ChunkMeta := ⟨"f.pdf", "1", ⟨List.replicate n 'a'⟩, "0", "2"⟩

/-- The digest of `make_id (metaAt n)` as an element of a finite
type. -/
def digestFin (n : Nat) :
    Fin 4294967296 × Fin 4294967296 × Fin 4294967296 × Fin 4294967296 :=
  ⟨⟨(md5Digest (utf8Bytes (makeKey (metaAt n)))).1, (md5Digest_bound _).1⟩,
   ⟨(md5Digest (utf8Bytes (makeKey (metaAt n)))).2.1, (md5Digest_bound _).2.1⟩,
   ⟨(md5Digest (utf8Bytes (makeKey (metaAt n)))).2.2.1, (md5Digest_bound _).2.2.1⟩,
   ⟨(md5Digest (utf8Bytes (makeKey (metaAt n)))).2.2.2, (md5Digest_bound _).2.2.2⟩⟩

/-- C6 counterexample: `make_id` hashes the key with md5, whose digest
space is finite, while the `chunk_index` field ranges over infinitely
many values with the other four fields fixed — so two distinct
`chunk_index` values must collide and the claimed "changing exactly one
field produces a different id" is false. -/
theorem c6_counterexample :
    ¬ (∀ m1 m2 : ChunkMeta, m1.filename = m2.filename → m1.page = m2.page →
        m1.start_char = m2.start_char → m1.end_char = m2.end_char →
        m1.chunk_index ≠ m2.chunk_index → make_id m1 ≠ make_id m2) := by
  intro hclaim
  obtain ⟨n, m, hnm, heq⟩ := Finite.exists_ne_map_eq_of_infinite digestFin
  have h1 := congrArg (fun x => x.1.val) heq
  have h2 := congrArg (fun x => x.2.1.val) heq
  have h3 := congrArg (fun x => x.2.2.1.val) heq
  have h4 := congrArg (fun x => x.2.2.2.val) heq
  simp only [digestFin] at h1 h2 h3 h4
  have hdig : md5Digest (utf8Bytes (makeKey (metaAt n))) =
      md5Digest (utf8Bytes (makeKey (metaAt m))) :=
    Prod.ext h1 (Prod.ext h2 (Prod.ext h3 h4))
  have hid : make_id (metaAt n) = make_id (metaAt m) := congrArg digestHex hdig
  have hci : (metaAt n).chunk_index ≠ (metaAt m).chunk_index := by
    intro hc
    have := congrArg (fun s => s.data.length) hc
    simp only [metaAt, List.length_replicate] at this
    exact hnm this
  exact hclaim (metaAt n) (metaAt m) rfl rfl rfl rfl hci hid

/-- C6 (amended): `make_id` is a pure function of the five metadata
fields — agreeing fields give equal ids — and changing exactly one of
the five fields always changes the hashed key string; distinct ids are
guaranteed at the key level, while the md5 digests of two distinct keys
may collide (the digest space is finite). -/
theorem c6_amended_identity :
    (∀ m1 m2 : ChunkMeta, m1.filename = m2.filename → m1.page = m2.page →
      m1.chunk_index = m2.chunk_index → m1.start_char = m2.start_char →
      m1.end_char = m2.end_char → make_id m1 = make_id m2) ∧
    (∀ m1 m2 : ChunkMeta, oneFieldDiff m1 m2 → makeKey m1 ≠ makeKey m2) := by
  constructor
  · intro m1 m2 h1 h2 h3 h4 h5
    cases m1; cases m2
    simp only at h1 h2 h3 h4 h5
    rw [h1, h2, h3, h4, h5]
  · intro m1 m2 hdiff hkey
    have hd := congrArg String.data hkey
    rw [makeKey_data, makeKey_data] at hd
    rcases hdiff with ⟨h1, h2, h3, h4, h5⟩ | ⟨h1, h2, h3, h4, h5⟩ |
      ⟨h1, h2, h3, h4, h5⟩ | ⟨h1, h2, h3, h4, h5⟩ | ⟨h1, h2, h3, h4, h5⟩
    · rw [h2, h3, h4, h5] at hd
      exact h1 (stringDataInj (List.append_cancel_right hd))
    · rw [h1, h3, h4, h5] at hd
      have hd2 := List.append_cancel_left (List.append_cancel_left hd)
      exact h2 (stringDataInj (List.append_cancel_right hd2))
    · rw [h1, h2, h4, h5] at hd
      have hd2 := List.append_cancel_left (List.append_cancel_left
        (List.append_cancel_left (List.append_cancel_left hd)))
      exact h3 (stringDataInj (List.append_cancel_right hd2))
    · rw [h1, h2, h3, h5] at hd
      have hd2 := List.append_cancel_left (List.append_cancel_left
        (List.append_cancel_left (List.append_cancel_left
          (List.append_cancel_left (List.append_cancel_left hd)))))
      exact h4 (stringDataInj (List.append_cancel_right hd2))
    · rw [h1, h2, h3, h4] at hd
      have hd2 := List.append_cancel_left (List.append_cancel_left
        (List.append_cancel_left (List.append_cancel_left
          (List.append_cancel_left (List.append_cancel_left
            (List.append_cancel_left (List.append_cancel_left hd)))))))
      exact h5 (stringDataInj hd2)

/-- C6 witness: equal fields give the same id, and bumping only
`chunk_index` changes the key. -/
theorem c6_amended_identity_witness :
    make_id ⟨"f.pdf", "1", "0", "0", "2"⟩ = make_id ⟨"f.pdf", "1", "0", "0", "2"⟩ ∧
    oneFieldDiff ⟨"f.pdf", "1", "0", "0", "2"⟩ ⟨"f.pdf", "1", "1", "0", "2"⟩ ∧
    makeKey ⟨"f.pdf", "1", "0", "0", "2"⟩ ≠ makeKey ⟨"f.pdf", "1", "1", "0", "2"⟩ :=
  ⟨c6_amended_identity.1 ⟨"f.pdf", "1", "0", "0", "2"⟩ ⟨"f.pdf", "1", "0", "0", "2"⟩
     rfl rfl rfl rfl rfl,
   by simp [oneFieldDiff],
   c6_amended_identity.2 ⟨"f.pdf", "1", "0", "0", "2"⟩ ⟨"f.pdf", "1", "1", "0", "2"⟩
     (by simp [oneFieldDiff])⟩

end ProyectoCero
